import Mathlib

/-!
Shallow embedding of `create_statistics.py`: the log analyzer
`analyze_torfs_output` and the report renderer `generate_report`.

A log is a list of lines (strings, without trailing newline; none of the
patterns below can match across or up to a newline, so this is faithful to
Python's per-line iteration).  The script matches each line against four
regular expressions with `re.search`, in a fixed priority order
(epoch, relay stats, adversary stats, circuit usage); the first match wins
and the rest are not tried.  The regexes use only literal text, `\d+`,
`\S+`, ` ` and `\[.*\]`, so `re.search` semantics are reproduced exactly by
scanning every start position left to right and, at each position, matching
literals and maximal-munch digit/token runs (no backtracking can ever help:
`\d+` is always followed by a non-digit literal and `\S+` by a space or end
of pattern).  `\d` is modelled as the ASCII digits and `\S` as the
complement of Python's whitespace class, matching the ASCII logs the script
consumes.
-/

namespace CreateStatistics

/-- Strip a literal off the front of a character list; `some rest` on success. -/
def dropLit : List Char → List Char → Option (List Char)
  | [], s => some s
  | _ :: _, [] => none
  | p :: ps, c :: cs => if c = p then dropLit ps cs else none

/-- Python whitespace class (`\s`); `\S` is its complement. -/
def isPySpace (c : Char) : Bool :=
  c = ' ' || c = '\t' || c = '\n' || c = '\r' || c = '\x0b' || c = '\x0c'

/-- Maximal run of ASCII digits (`\d+` maximal munch) and the remainder. -/
def takeDigits : List Char → List Char × List Char
  | [] => ([], [])
  | c :: cs =>
    if c.isDigit then
      let (ds, r) := takeDigits cs
      (c :: ds, r)
    else ([], c :: cs)

/-- Maximal run of non-whitespace characters (`\S+` maximal munch). -/
def takeTok : List Char → List Char × List Char
  | [] => ([], [])
  | c :: cs =>
    if isPySpace c then ([], c :: cs)
    else
      let (t, r) := takeTok cs
      (c :: t, r)

/-- Numeric value of a digit string, as Python's `int()` computes it. -/
def natOfDigits (ds : List Char) : Nat :=
  ds.foldl (fun n c => n * 10 + (c.toNat - 48)) 0

/-- Does `pat` occur as a contiguous substring anywhere in the list? -/
def hasSub (pat : List Char) : List Char → Bool
  | [] => (dropLit pat []).isSome
  | c :: cs => (dropLit pat (c :: cs)).isSome || hasSub pat cs

/-- `re.search` driver: try the position matcher at every start position,
leftmost success wins. -/
def searchO {α : Type} (f : List Char → Option α) : List Char → Option α
  | [] => f []
  | c :: cs =>
    match f (c :: cs) with
    | some v => some v
    | none => searchO f cs

/-- Scan for `\[.*\]` followed by the literal `pat`: a `'['` somewhere,
with `pat` occurring somewhere after it (`.*` matches anything within the
line). -/
def brackScan (pat : List Char) : List Char → Bool
  | [] => false
  | c :: cs => (c = '[' && hasSub pat cs) || brackScan pat cs

/-- The literal tail of the epoch pattern
`\[.*\] Entering simulation epoch with consensus from`. -/
def epochClose : List Char := "] Entering simulation epoch with consensus from".toList

/-- `patterns['epoch'].search(line)` as a Boolean. -/
def epochMatch (l : String) : Bool := brackScan epochClose l.data

/-- Position matcher for
`Total relays in consensus: (\d+), Valid/Running Guards: (\d+), Valid/Running Exits: (\d+)`. -/
def relayAt (s : List Char) : Option (Nat × Nat × Nat) :=
  (dropLit "Total relays in consensus: ".toList s).bind fun s =>
  let (d1, s) := takeDigits s
  if d1 = [] then none else
  (dropLit ", Valid/Running Guards: ".toList s).bind fun s =>
  let (d2, s) := takeDigits s
  if d2 = [] then none else
  (dropLit ", Valid/Running Exits: ".toList s).bind fun s =>
  let (d3, _) := takeDigits s
  if d3 = [] then none else
  some (natOfDigits d1, natOfDigits d2, natOfDigits d3)

/-- `patterns['relay_stats'].search(line)` with its three integer groups. -/
def relayMatch (l : String) : Option (Nat × Nat × Nat) := searchO relayAt l.data

/-- Position matcher for
`Total adversary guard relays: (\d+), Total adversary exit relays: (\d+)`. -/
def advAt (s : List Char) : Option (Nat × Nat) :=
  (dropLit "Total adversary guard relays: ".toList s).bind fun s =>
  let (d1, s) := takeDigits s
  if d1 = [] then none else
  (dropLit ", Total adversary exit relays: ".toList s).bind fun s =>
  let (d2, _) := takeDigits s
  if d2 = [] then none else
  some (natOfDigits d1, natOfDigits d2)

/-- `patterns['adv_stats'].search(line)` with its two integer groups. -/
def advMatch (l : String) : Option (Nat × Nat) := searchO advAt l.data

/-- Position matcher for
`Client (\d+) uses the following circuit for a stream request: (\S+) (\S+) (\S+)`. -/
def circuitAt (s : List Char) : Option (Nat × String × String × String) :=
  (dropLit "Client ".toList s).bind fun s =>
  let (d, s) := takeDigits s
  if d = [] then none else
  (dropLit " uses the following circuit for a stream request: ".toList s).bind fun s =>
  let (t1, s) := takeTok s
  if t1 = [] then none else
  match s with
  | ' ' :: s =>
    let (t2, s) := takeTok s
    if t2 = [] then none else
    match s with
    | ' ' :: s =>
      let (t3, _) := takeTok s
      if t3 = [] then none else
      some (natOfDigits d, String.mk t1, String.mk t2, String.mk t3)
    | _ => none
  | _ => none

/-- `patterns['circuit'].search(line)` with its four groups. -/
def circuitMatch (l : String) : Option (Nat × String × String × String) :=
  searchO circuitAt l.data

/-- The event a line is consumed as: the script's `if`/`continue` cascade
tries the four patterns in this fixed priority order, so a line is consumed
by at most one of them. -/
inductive LineEvent where
  | epochMark
  | relayCounts (a b c : Nat)
  | advCounts (g e : Nat)
  | circuitUse (cid : Nat) (g m x : String)
  | skip
deriving DecidableEq, Repr

/-- Classify one line exactly as the loop body's cascade does. -/
def classifyLine (l : String) : LineEvent :=
  if epochMatch l then .epochMark
  else match relayMatch l with
  | some (a, b, c) => .relayCounts a b c
  | none =>
    match advMatch l with
    | some (g, e) => .advCounts g e
    | none =>
      match circuitMatch l with
      | some (cid, g, m, x) => .circuitUse cid g m x
      | none => .skip

/-- The running relay-statistics snapshot (the script's `relay_stats` dict). -/
structure RelayStats where
  total_relays : Nat
  total_guards : Nat
  total_exits : Nat
  adv_guards : Nat
  adv_exits : Nat
deriving DecidableEq, Repr

/-- All five counters start at zero. -/
def initRelayStats : RelayStats :=
  { total_relays := 0, total_guards := 0, total_exits := 0, adv_guards := 0, adv_exits := 0 }

/-- `guard.endswith('*')`: the adversarial-marker test on an identifier. -/
def endsStar (s : String) : Bool := s.data.getLast? = some '*'

/-- The 3-bit compromise vector `(g_comp, m_comp, e_comp)` of a circuit line. -/
def compVec (g m x : String) : Bool × Bool × Bool := (endsStar g, endsStar m, endsStar x)

/-- Compromise status of a stored circuit identity: some position carries
the marker.  Determined by the identity alone. -/
def isCompId (c : String × String × String) : Bool :=
  endsStar c.1 || endsStar c.2.1 || endsStar c.2.2

/-- The analyzer's accumulation state.  `all_circuits` is the deduplicating
set of identities; `circuits_compromised` the per-vector tally
(`defaultdict(int)`, modelled as a total function that is `0` off the
inserted keys); `client_exposures` is split into its key set
`exposure_keys` and the per-client vector set `exposures` (a
`defaultdict(set)`, empty off the keys); `current_epoch` records the
truthiness of the script's `current_epoch` variable (a matched epoch line
always strips to a non-empty string, so truthiness is exactly "a marker was
seen"). -/
structure AnalyzerState where
  all_circuits : Finset (String × String × String)
  circuits_compromised : Bool × Bool × Bool → Nat
  exposure_keys : Finset Nat
  exposures : Nat → Finset (Bool × Bool × Bool)
  epoch_data : List RelayStats
  current_epoch : Bool
  relay_stats : RelayStats

/-- Initial analyzer state. -/
def initState : AnalyzerState :=
  { all_circuits := ∅
    circuits_compromised := fun _ => 0
    exposure_keys := ∅
    exposures := fun _ => ∅
    epoch_data := []
    current_epoch := false
    relay_stats := initRelayStats }

/-- One iteration of the scanning loop. -/
def processLine (st : AnalyzerState) (l : String) : AnalyzerState :=
  match classifyLine l with
  | .epochMark =>
    { st with
      epoch_data := if st.current_epoch then st.epoch_data ++ [st.relay_stats] else st.epoch_data
      current_epoch := true }
  | .relayCounts a b c =>
    { st with relay_stats := { st.relay_stats with total_relays := a, total_guards := b, total_exits := c } }
  | .advCounts g e =>
    { st with relay_stats := { st.relay_stats with adv_guards := g, adv_exits := e } }
  | .circuitUse cid g m x =>
    if (endsStar g || endsStar m || endsStar x) = true ∧ (g, m, x) ∉ st.all_circuits then
      { st with
        all_circuits := insert (g, m, x) st.all_circuits
        circuits_compromised := fun u =>
          if u = compVec g m x then st.circuits_compromised u + 1 else st.circuits_compromised u
        exposure_keys := insert cid st.exposure_keys
        exposures := fun k =>
          if k = cid then insert (compVec g m x) (st.exposures k) else st.exposures k }
    else
      { st with all_circuits := insert (g, m, x) st.all_circuits }
  | .skip => st

/-- State after scanning all input lines (before the final epoch flush). -/
def foldState (lines : List String) : AnalyzerState :=
  lines.foldl processLine initState

/-- The `# Add final epoch data` step after the loop. -/
def finalFlush (st : AnalyzerState) : AnalyzerState :=
  if st.current_epoch then { st with epoch_data := st.epoch_data ++ [st.relay_stats] } else st

/-- The result dictionary returned by `analyze_torfs_output`
(`client_exposures` appears as the pair of `exposure_keys` and
`exposures`; `client_counts` is computed from it exactly as the script's
loop over `client_exposures.values()` does, counting for each vector the
clients whose exposure set contains it). -/
structure AnalysisResults where
  total_circuits : Nat
  compromised_circuits : Nat
  circuit_counts : Bool × Bool × Bool → Nat
  total_clients : Nat
  compromised_clients : Nat
  client_counts : Bool × Bool × Bool → Nat
  exposure_keys : Finset Nat
  exposures : Nat → Finset (Bool × Bool × Bool)
  epoch_data : List RelayStats

/-- `analyze_torfs_output`, as a function of the input's lines. -/
def analyze_torfs_output (lines : List String) : AnalysisResults :=
  let st := finalFlush (foldState lines)
  { total_circuits := st.all_circuits.card
    compromised_circuits := Finset.univ.sum st.circuits_compromised
    circuit_counts := st.circuits_compromised
    total_clients :=
      if h : st.exposure_keys.Nonempty then st.exposure_keys.max' h + 1 else 0
    compromised_clients := st.exposure_keys.card
    client_counts := fun t => (st.exposure_keys.filter (fun k => t ∈ st.exposures k)).card
    exposure_keys := st.exposure_keys
    exposures := st.exposures
    epoch_data := st.epoch_data }

/-- Number of lines the analyzer consumes as epoch markers. -/
def countMarkers (lines : List String) : Nat := lines.countP (fun l => epochMatch l)

/-- Circuit identities collected from the input, mirroring the unconditional
`all_circuits.add(circuit_id)` on every consumed circuit line. -/
def idStep (s : Finset (String × String × String)) (l : String) :
    Finset (String × String × String) :=
  match classifyLine l with
  | .circuitUse _ g m x => insert (g, m, x) s
  | _ => s

/-- The set of distinct circuit identities appearing on consumed
circuit-usage lines of the input. -/
def circuitIds (lines : List String) : Finset (String × String × String) :=
  lines.foldl idStep ∅

/-!
Renderer.  `generate_report` builds a list of text lines; we model each
appended line structurally, recording the numbers that appear in it (a
percentage line is recorded with its numerator data and its denominator).
Python raises `ZeroDivisionError` when an f-string divides by zero, so the
renderer is modelled in `Except Unit`, failing exactly where the script
divides by zero: at the `Compromised circuits` line when `total_circuits`
is `0` (line 129), at the `Clients using compromised circuits` line when
`total_clients` is `0` (line 142), and in the relay section when the
average total/guard/exit relay count is `0` (lines 170/172/173; with at
least one epoch, an average is `0` exactly when the corresponding field sum
is `0`).  The divisions inside the breakdown loops and the
multiple-exposure line cannot fail when reached: their denominators
(`compromised_circuits`, `total_clients`, `compromised_clients`) are
positive there, guarded by the enclosing branch or by an earlier division
on the same denominator.
-/

/-- One appended report line.  Header constructors stand for the fixed
text lines (including the `===` separators directly under them). -/
inductive ReportLine where
  | circuitHeader
  | totalUniqueCircuits (n : Nat)
  | compromisedCircuits (n total : Nat)
  | circuitBreakdownHeader
  | circuitBreakdown (t : Bool × Bool × Bool) (count den : Nat)
  | clientHeader
  | totalClients (n : Nat)
  | compromisedClients (n total : Nat)
  | clientBreakdownHeader
  | clientBreakdown (t : Bool × Bool × Bool) (count den : Nat)
  | multiExposure (n den : Nat)
  | relayHeader
  | numEpochs (n : Nat)
  | avgHeader
  | avgTotal (sum n : Nat)
  | avgGuards (sum n den : Nat)
  | avgExits (sum n den : Nat)
  | advGuardsAvg (sum n den : Nat)
  | advExitsAvg (sum n den : Nat)
deriving DecidableEq, Repr

/-- `all_combinations`: the seven non-empty compromise vectors, in the
fixed presentation order of the script. -/
def allCombinations : List (Bool × Bool × Bool) :=
  [(true, false, false), (false, true, false), (false, false, true),
   (true, true, false), (true, false, true), (false, true, true),
   (true, true, true)]

/-- The breakdown loop: one line per combination with a non-zero count. -/
def breakdown (f : Bool × Bool × Bool → Nat) (den : Nat)
    (mk : Bool × Bool × Bool → Nat → Nat → ReportLine) : List ReportLine :=
  allCombinations.filterMap fun t => if f t > 0 then some (mk t (f t) den) else none

/-- Clients with more than one distinct exposure vector. -/
def multiCount (r : AnalysisResults) : Nat :=
  (r.exposure_keys.filter (fun k => 1 < (r.exposures k).card)).card

/-- The `CIRCUIT STATISTICS` section. -/
def circuitSection (r : AnalysisResults) : List ReportLine :=
  [.circuitHeader, .totalUniqueCircuits r.total_circuits,
   .compromisedCircuits r.compromised_circuits r.total_circuits]
  ++ (if r.compromised_circuits > 0 then
        .circuitBreakdownHeader ::
          breakdown r.circuit_counts r.compromised_circuits ReportLine.circuitBreakdown
      else [])

/-- The `CLIENT STATISTICS` section. -/
def clientSection (r : AnalysisResults) : List ReportLine :=
  [.clientHeader, .totalClients r.total_clients,
   .compromisedClients r.compromised_clients r.total_clients]
  ++ (if r.compromised_clients > 0 then
        (.clientBreakdownHeader ::
          breakdown r.client_counts r.total_clients ReportLine.clientBreakdown)
        ++ (if multiCount r > 0 then [.multiExposure (multiCount r) r.compromised_clients] else [])
      else [])

/-- Sum of one snapshot field over the stored epochs (the numerator of the
corresponding average; the denominator is the number of epochs). -/
def sumBy (f : RelayStats → Nat) (l : List RelayStats) : Nat := (l.map f).sum

/-- The `RELAY STATISTICS` section (empty when no epochs are stored). -/
def relaySection (r : AnalysisResults) : List ReportLine :=
  if r.epoch_data.isEmpty then [] else
  [.relayHeader, .numEpochs r.epoch_data.length, .avgHeader,
   .avgTotal (sumBy RelayStats.total_relays r.epoch_data) r.epoch_data.length,
   .avgGuards (sumBy RelayStats.total_guards r.epoch_data) r.epoch_data.length
     (sumBy RelayStats.total_relays r.epoch_data),
   .avgExits (sumBy RelayStats.total_exits r.epoch_data) r.epoch_data.length
     (sumBy RelayStats.total_relays r.epoch_data),
   .advGuardsAvg (sumBy RelayStats.adv_guards r.epoch_data) r.epoch_data.length
     (sumBy RelayStats.total_guards r.epoch_data),
   .advExitsAvg (sumBy RelayStats.adv_exits r.epoch_data) r.epoch_data.length
     (sumBy RelayStats.total_exits r.epoch_data)]

/-- `generate_report`: the report's lines, or `Except.error ()` when the
script raises `ZeroDivisionError`. -/
def generate_report (r : AnalysisResults) : Except Unit (List ReportLine) :=
  if r.total_circuits = 0 then .error () else
  if r.total_clients = 0 then .error () else
  if r.epoch_data.isEmpty then .ok (circuitSection r ++ clientSection r) else
  if sumBy RelayStats.total_relays r.epoch_data = 0 then .error () else
  if sumBy RelayStats.total_guards r.epoch_data = 0 then .error () else
  if sumBy RelayStats.total_exits r.epoch_data = 0 then .error () else
  .ok (circuitSection r ++ clientSection r ++ relaySection r)

/-! Concrete log lines used to instantiate the theorems. -/

/-- Scenario B's circuit line: client 3, guard compromised. -/
def lineB : String := "Client 3 uses the following circuit for a stream request: G1* M1 X1"

/-- A clean circuit line of a higher-numbered client. -/
def lineClean7 : String := "Client 7 uses the following circuit for a stream request: A1 B1 C1"

/-- A clean circuit line of client 9. -/
def lineClean9 : String := "Client 9 uses the following circuit for a stream request: A1 B1 C1"

/-- A relay-count line. -/
def lineRelay : String :=
  "Total relays in consensus: 10, Valid/Running Guards: 5, Valid/Running Exits: 3"

/-- An adversary-count line. -/
def lineAdv : String := "Total adversary guard relays: 7, Total adversary exit relays: 5"

/-- An epoch-marker line with the bracketed timestamp-like prefix. -/
def lineMark : String :=
  "[2024-01-01 10:00:00] Entering simulation epoch with consensus from 2024-01-01-10"

/-- A line carrying the epoch-marker text but no bracketed prefix. -/
def lineNoBrack : String := "Entering simulation epoch with consensus from 2024-01-01-10"

/-- The epoch-marker text itself (without the closing bracket). -/
def markerText : List Char := "Entering simulation epoch with consensus from".toList

/-- The report produced for the single-line Scenario B log. -/
def outB : List ReportLine :=
  match generate_report (analyze_torfs_output [lineB]) with
  | .ok o => o
  | .error _ => []

/-! Helper lemmas about the line classifier. -/

theorem classify_of_epoch (l : String) (h : epochMatch l = true) :
    classifyLine l = .epochMark := by
  simp [classifyLine, h]

theorem epochMatch_false_of_classify_ne (l : String) (h : classifyLine l ≠ .epochMark) :
    epochMatch l = false := by
  cases hme : epochMatch l
  · rfl
  · exact absurd (classify_of_epoch l hme) h

theorem epoch_of_classify (l : String) (h : classifyLine l = .epochMark) :
    epochMatch l = true := by
  unfold classifyLine at h
  split at h
  · assumption
  · split at h
    · cases h
    · split at h
      · cases h
      · split at h
        · cases h
        · cases h

theorem relay_of_classify (l : String) (a b c : Nat)
    (h : classifyLine l = .relayCounts a b c) : relayMatch l = some (a, b, c) := by
  unfold classifyLine at h
  split at h
  · cases h
  · split at h
    · injection h with h1 h2 h3
      subst h1; subst h2; subst h3
      assumption
    · split at h
      · cases h
      · split at h
        · cases h
        · cases h

theorem adv_of_classify (l : String) (g e : Nat)
    (h : classifyLine l = .advCounts g e) : advMatch l = some (g, e) := by
  unfold classifyLine at h
  split at h
  · cases h
  · split at h
    · cases h
    · split at h
      · injection h with h1 h2
        subst h1; subst h2
        assumption
      · split at h
        · cases h
        · cases h

/-! Claim theorems (first batch). -/

/-- C1: the claim requires the renderer to survive a log with zero
circuits, but on the empty log `generate_report` divides
`compromised_circuits` by `total_circuits = 0` and raises
`ZeroDivisionError`; the model evaluates to the error outcome. -/
theorem spec_C1 : generate_report (analyze_torfs_output []) = Except.error () := rfl

/-- C8: the analysis is a deterministic pure function of the input line
sequence: two runs on equal logs agree on every result field. -/
theorem spec_C8 (l1 l2 : List String) (h : l1 = l2) :
    analyze_torfs_output l1 = analyze_torfs_output l2
    ∧ (analyze_torfs_output l1).total_circuits = (analyze_torfs_output l2).total_circuits
    ∧ (analyze_torfs_output l1).compromised_circuits = (analyze_torfs_output l2).compromised_circuits
    ∧ (analyze_torfs_output l1).circuit_counts = (analyze_torfs_output l2).circuit_counts
    ∧ (analyze_torfs_output l1).total_clients = (analyze_torfs_output l2).total_clients
    ∧ (analyze_torfs_output l1).compromised_clients = (analyze_torfs_output l2).compromised_clients
    ∧ (analyze_torfs_output l1).client_counts = (analyze_torfs_output l2).client_counts
    ∧ (analyze_torfs_output l1).exposure_keys = (analyze_torfs_output l2).exposure_keys
    ∧ (analyze_torfs_output l1).exposures = (analyze_torfs_output l2).exposures
    ∧ (analyze_torfs_output l1).epoch_data = (analyze_torfs_output l2).epoch_data := by
  subst h
  exact ⟨rfl, rfl, rfl, rfl, rfl, rfl, rfl, rfl, rfl, rfl⟩

/-- Witness for C8 at a concrete log. -/
theorem spec_C8_witness :
    analyze_torfs_output [lineB] = analyze_torfs_output [lineB] :=
  (spec_C8 [lineB] [lineB] rfl).1

/-- C7: a relay-count line overwrites exactly the three total fields of the
running snapshot and leaves the adversary fields unchanged; an
adversary-count line overwrites exactly the two adversary fields and leaves
the three total fields unchanged. -/
theorem spec_C7 :
    (∀ (st : AnalyzerState) (l : String) (a b c : Nat),
      classifyLine l = .relayCounts a b c →
        (processLine st l).relay_stats.total_relays = a
        ∧ (processLine st l).relay_stats.total_guards = b
        ∧ (processLine st l).relay_stats.total_exits = c
        ∧ (processLine st l).relay_stats.adv_guards = st.relay_stats.adv_guards
        ∧ (processLine st l).relay_stats.adv_exits = st.relay_stats.adv_exits)
    ∧ (∀ (st : AnalyzerState) (l : String) (g e : Nat),
      classifyLine l = .advCounts g e →
        (processLine st l).relay_stats.adv_guards = g
        ∧ (processLine st l).relay_stats.adv_exits = e
        ∧ (processLine st l).relay_stats.total_relays = st.relay_stats.total_relays
        ∧ (processLine st l).relay_stats.total_guards = st.relay_stats.total_guards
        ∧ (processLine st l).relay_stats.total_exits = st.relay_stats.total_exits) := by
  constructor
  · intro st l a b c h
    refine ⟨?_, ?_, ?_, ?_, ?_⟩ <;> simp [processLine, h]
  · intro st l g e h
    refine ⟨?_, ?_, ?_, ?_, ?_⟩ <;> simp [processLine, h]

/-- Witness for C7: a concrete relay-count line and a concrete
adversary-count line applied to the initial state. -/
theorem spec_C7_witness :
    (processLine initState lineRelay).relay_stats.total_relays = 10
    ∧ (processLine initState lineRelay).relay_stats.adv_guards = initState.relay_stats.adv_guards
    ∧ (processLine initState lineAdv).relay_stats.adv_guards = 7
    ∧ (processLine initState lineAdv).relay_stats.total_relays = initState.relay_stats.total_relays := by
  have h1 := spec_C7.1 initState lineRelay 10 5 3 (by decide)
  have h2 := spec_C7.2 initState lineAdv 7 5 (by decide)
  exact ⟨h1.1, h1.2.2.2.1, h2.1, h2.2.2.1⟩

/-- C3: `total_clients` is one more than the largest exposed-client index
(`0` when no client is exposed); Scenario B yields 4 total clients with one
compromised guard-vector circuit, and a higher-numbered client with only
clean circuits does not raise the count. -/
theorem spec_C3 :
    (∀ lines : List String,
      (analyze_torfs_output lines).total_clients =
        (if h : (analyze_torfs_output lines).exposure_keys.Nonempty
         then (analyze_torfs_output lines).exposure_keys.max' h + 1 else 0))
    ∧ (analyze_torfs_output [lineB]).total_circuits = 1
    ∧ (analyze_torfs_output [lineB]).compromised_circuits = 1
    ∧ (analyze_torfs_output [lineB]).circuit_counts (true, false, false) = 1
    ∧ (analyze_torfs_output [lineB]).total_clients = 4
    ∧ (analyze_torfs_output [lineB]).compromised_clients = 1
    ∧ (analyze_torfs_output [lineB, lineClean7]).total_clients = 4
    ∧ (analyze_torfs_output [lineClean9]).total_clients = 0
    ∧ (analyze_torfs_output [lineClean9]).compromised_clients = 0 := by
  refine ⟨fun lines => rfl, ?_, ?_, ?_, ?_, ?_, ?_, ?_, ?_⟩ <;> rfl

/-- Auxiliary fact: the size of a finite set of naturals is at most one
more than its maximum (and `0` for the empty set). -/
theorem card_le_max_add_one (s : Finset ℕ) :
    s.card ≤ if h : s.Nonempty then s.max' h + 1 else 0 := by
  by_cases h : s.Nonempty
  · rw [dif_pos h]
    have hsub : s ⊆ Finset.range (s.max' h + 1) := by
      intro k hk
      exact Finset.mem_range.mpr (Nat.lt_succ_of_le (Finset.le_max' s k hk))
    calc s.card ≤ (Finset.range (s.max' h + 1)).card := Finset.card_le_card hsub
      _ = s.max' h + 1 := Finset.card_range _
  · rw [dif_neg h]
    simp [Finset.not_nonempty_iff_eq_empty.mp h]

/-- C10: the number of exposed clients never exceeds `total_clients`, so
the compromised-client percentage never exceeds 100%. -/
theorem spec_C10 (lines : List String) :
    (analyze_torfs_output lines).compromised_clients ≤ (analyze_torfs_output lines).total_clients :=
  card_le_max_add_one _

/-! Epoch bookkeeping: the number of stored snapshots plus the pending-flush
bit is exactly the number of epoch markers consumed so far. -/

theorem mu_fold (lines : List String) (st : AnalyzerState) :
    (lines.foldl processLine st).epoch_data.length
      + (lines.foldl processLine st).current_epoch.toNat
    = st.epoch_data.length + st.current_epoch.toNat + countMarkers lines := by
  induction lines generalizing st with
  | nil => simp [countMarkers]
  | cons l ls ih =>
    rw [List.foldl_cons, ih (processLine st l)]
    have hstep : (processLine st l).epoch_data.length + (processLine st l).current_epoch.toNat
        = st.epoch_data.length + st.current_epoch.toNat + (if epochMatch l then 1 else 0) := by
      cases hc : classifyLine l with
      | epochMark =>
        have hm : epochMatch l = true := epoch_of_classify l hc
        rw [if_pos hm]
        cases hcur : st.current_epoch <;> simp [processLine, hc, hcur]
      | relayCounts a b c =>
        have hm : epochMatch l = false :=
          epochMatch_false_of_classify_ne l (by simp [hc])
        simp [processLine, hc, hm]
      | advCounts g e =>
        have hm : epochMatch l = false :=
          epochMatch_false_of_classify_ne l (by simp [hc])
        simp [processLine, hc, hm]
      | circuitUse cid g m x =>
        have hm : epochMatch l = false :=
          epochMatch_false_of_classify_ne l (by simp [hc])
        simp only [processLine, hc]
        split <;> simp [hm]
      | skip =>
        have hm : epochMatch l = false :=
          epochMatch_false_of_classify_ne l (by simp [hc])
        simp [processLine, hc, hm]
    rw [hstep]
    simp only [countMarkers, List.countP_cons]
    omega

/-! Renderer membership facts for the relay section. -/

theorem mem_breakdown {x : ReportLine} {f : Bool × Bool × Bool → Nat} {den : Nat}
    {mk : Bool × Bool × Bool → Nat → Nat → ReportLine}
    (h : x ∈ breakdown f den mk) : ∃ t, x = mk t (f t) den := by
  simp only [breakdown, List.mem_filterMap] at h
  rcases h with ⟨t, _, ht⟩
  by_cases hf : f t > 0
  · rw [if_pos hf] at ht
    exact ⟨t, (Option.some_inj.mp ht).symm⟩
  · rw [if_neg hf] at ht
    cases ht

theorem relayHeader_not_mem_circuitSection (r : AnalysisResults) :
    ReportLine.relayHeader ∉ circuitSection r := by
  intro h
  rcases List.mem_append.mp h with h | h
  · simp at h
  · split at h
    · rcases List.mem_cons.mp h with h | h
      · cases h
      · rcases mem_breakdown h with ⟨t, ht⟩
        cases ht
    · cases h

theorem relayHeader_not_mem_clientSection (r : AnalysisResults) :
    ReportLine.relayHeader ∉ clientSection r := by
  intro h
  rcases List.mem_append.mp h with h | h
  · simp at h
  · split at h
    · rcases List.mem_append.mp h with h | h
      · rcases List.mem_cons.mp h with h | h
        · cases h
        · rcases mem_breakdown h with ⟨t, ht⟩
          cases ht
      · split at h
        · have := List.mem_singleton.mp h
          simp at this
        · cases h
    · cases h

theorem relay_section_iff (r : AnalysisResults) (out : List ReportLine)
    (h : generate_report r = Except.ok out) :
    ReportLine.relayHeader ∈ out ↔ r.epoch_data ≠ [] := by
  unfold generate_report at h
  split at h
  · cases h
  split at h
  · cases h
  split at h
  next hemp =>
    injection h with h
    subst h
    constructor
    · intro hm
      rcases List.mem_append.mp hm with hm | hm
      · exact absurd hm (relayHeader_not_mem_circuitSection r)
      · exact absurd hm (relayHeader_not_mem_clientSection r)
    · intro hne
      exact absurd (List.isEmpty_iff.mp hemp) hne
  next hemp =>
    split at h
    · cases h
    split at h
    · cases h
    split at h
    · cases h
    injection h with h
    subst h
    constructor
    · intro _
      exact fun hnil => hemp (by simp [hnil])
    · intro _
      refine List.mem_append.mpr (Or.inr ?_)
      unfold relaySection
      rw [if_neg hemp]
      exact List.mem_cons_self _ _

/-- C6: the number of stored epoch snapshots equals the number of
epoch-marker lines (for every input, zero markers included), and a
successfully rendered report contains the relay-statistics section exactly
when at least one snapshot is stored. -/
theorem spec_C6 :
    (∀ lines : List String,
      (analyze_torfs_output lines).epoch_data.length = countMarkers lines)
    ∧ (∀ (r : AnalysisResults) (out : List ReportLine),
        generate_report r = Except.ok out →
          (ReportLine.relayHeader ∈ out ↔ r.epoch_data ≠ [])) := by
  constructor
  · intro lines
    have h := mu_fold lines initState
    rw [show initState.epoch_data = [] from rfl, show initState.current_epoch = false from rfl] at h
    simp at h
    show (finalFlush (lines.foldl processLine initState)).epoch_data.length = countMarkers lines
    unfold finalFlush
    split
    next hcur =>
      rw [hcur] at h
      simp at h ⊢
      omega
    next hcur =>
      have hf : (lines.foldl processLine initState).current_epoch = false := by
        simpa using hcur
      rw [hf] at h
      simpa using h
  · exact relay_section_iff

/-- Witness for C6: the single-line Scenario B log has no epoch markers,
renders successfully, and its report has no relay section. -/
theorem spec_C6_witness :
    (analyze_torfs_output [lineB]).epoch_data.length = countMarkers [lineB]
    ∧ ReportLine.relayHeader ∉ outB := by
  refine ⟨spec_C6.1 [lineB], fun hm => ?_⟩
  have hok : generate_report (analyze_torfs_output [lineB]) = Except.ok outB := rfl
  have hne := (spec_C6.2 (analyze_torfs_output [lineB]) outB hok).mp hm
  exact hne (by rfl)

/-- C4: reprocessing a circuit-usage line whose identity is already in the
cumulative circuit set leaves the analyzer state unchanged (the tally, the
exposure sets and the circuit set itself), and Scenario C's repeated
compromised line yields one circuit, one compromised circuit, and a
single-vector exposure set for client 3. -/
theorem spec_C4 :
    (∀ (st : AnalyzerState) (l : String) (cid : Nat) (g m x : String),
      classifyLine l = .circuitUse cid g m x → (g, m, x) ∈ st.all_circuits →
        processLine st l = st)
    ∧ (analyze_torfs_output [lineB, lineB]).total_circuits = 1
    ∧ (analyze_torfs_output [lineB, lineB]).compromised_circuits = 1
    ∧ ((analyze_torfs_output [lineB, lineB]).exposures 3).card = 1
    ∧ (analyze_torfs_output [lineB, lineB]).compromised_clients = 1 := by
  refine ⟨?_, rfl, rfl, rfl, rfl⟩
  intro st l cid g m x hc hmem
  simp only [processLine, hc]
  rw [if_neg (fun hcond => hcond.2 hmem)]
  rw [Finset.insert_eq_self.mpr hmem]

/-- Witness for C4: the Scenario B line reprocessed on the state that has
already consumed it is a no-op. -/
theorem spec_C4_witness :
    processLine (foldState [lineB]) lineB = foldState [lineB] :=
  spec_C4.1 (foldState [lineB]) lineB 3 "G1*" "M1" "X1" (by decide) (by decide)

/-! Frame lemmas: which lines leave the relay snapshot (and the epoch
bookkeeping) untouched. -/

theorem fold_no_relay (mid : List String) (st : AnalyzerState)
    (h : ∀ l ∈ mid, relayMatch l = none ∧ advMatch l = none) :
    (mid.foldl processLine st).relay_stats = st.relay_stats := by
  induction mid generalizing st with
  | nil => rfl
  | cons l ls ih =>
    rw [List.foldl_cons]
    have hl := h l (List.mem_cons_self _ _)
    have hrest : ∀ l2 ∈ ls, relayMatch l2 = none ∧ advMatch l2 = none :=
      fun l2 hl2 => h l2 (List.mem_cons_of_mem _ hl2)
    rw [ih (processLine st l) hrest]
    cases hc : classifyLine l with
    | epochMark => simp [processLine, hc]
    | relayCounts a b c => exact absurd (relay_of_classify l a b c hc) (by simp [hl.1])
    | advCounts g e => exact absurd (adv_of_classify l g e hc) (by simp [hl.2])
    | circuitUse cid g m x =>
      simp only [processLine, hc]
      split <;> rfl
    | skip => simp [processLine, hc]

theorem fold_quiet (mid : List String) (st : AnalyzerState)
    (h : ∀ l ∈ mid, epochMatch l = false ∧ relayMatch l = none ∧ advMatch l = none) :
    (mid.foldl processLine st).relay_stats = st.relay_stats
    ∧ (mid.foldl processLine st).epoch_data = st.epoch_data
    ∧ (mid.foldl processLine st).current_epoch = st.current_epoch := by
  induction mid generalizing st with
  | nil => exact ⟨rfl, rfl, rfl⟩
  | cons l ls ih =>
    rw [List.foldl_cons]
    have hl := h l (List.mem_cons_self _ _)
    have hrest : ∀ l2 ∈ ls, epochMatch l2 = false ∧ relayMatch l2 = none ∧ advMatch l2 = none :=
      fun l2 hl2 => h l2 (List.mem_cons_of_mem _ hl2)
    obtain ⟨i1, i2, i3⟩ := ih (processLine st l) hrest
    have hstep : (processLine st l).relay_stats = st.relay_stats
        ∧ (processLine st l).epoch_data = st.epoch_data
        ∧ (processLine st l).current_epoch = st.current_epoch := by
      cases hc : classifyLine l with
      | epochMark => exact absurd (epoch_of_classify l hc) (by simp [hl.1])
      | relayCounts a b c => exact absurd (relay_of_classify l a b c hc) (by simp [hl.2.1])
      | advCounts g e => exact absurd (adv_of_classify l g e hc) (by simp [hl.2.2])
      | circuitUse cid g m x =>
        refine ⟨?_, ?_, ?_⟩ <;> (simp only [processLine, hc]; split <;> rfl)
      | skip =>
        exact ⟨by simp [processLine, hc], by simp [processLine, hc], by simp [processLine, hc]⟩
    exact ⟨i1.trans hstep.1, i2.trans hstep.2.1, i3.trans hstep.2.2⟩

/-- C9: the running relay snapshot is never reset at an epoch boundary.  An
epoch-marker line leaves it unchanged; a span with no relay-count and no
adversary-count lines leaves it unchanged; consequently, when an epoch's
span contains no such lines, the snapshots stored at its closing marker and
at end of input all equal the snapshot carried over from before the epoch
(the all-zero initial snapshot when the silent epoch is the first one). -/
theorem spec_C9 :
    (∀ (st : AnalyzerState) (l : String), epochMatch l = true →
        (processLine st l).relay_stats = st.relay_stats)
    ∧ (∀ (mid : List String) (st : AnalyzerState),
        (∀ l ∈ mid, relayMatch l = none ∧ advMatch l = none) →
        (mid.foldl processLine st).relay_stats = st.relay_stats)
    ∧ (∀ (pre mid : List String) (m : String),
        epochMatch m = true →
        (∀ l ∈ mid, epochMatch l = false ∧ relayMatch l = none ∧ advMatch l = none) →
        (foldState pre).current_epoch = true →
        (analyze_torfs_output (pre ++ m :: (mid ++ [m]))).epoch_data
          = (foldState pre).epoch_data
            ++ [(foldState pre).relay_stats, (foldState pre).relay_stats,
                (foldState pre).relay_stats])
    ∧ (∀ (mid : List String) (m : String),
        epochMatch m = true →
        (∀ l ∈ mid, epochMatch l = false ∧ relayMatch l = none ∧ advMatch l = none) →
        (analyze_torfs_output (m :: (mid ++ [m]))).epoch_data
          = [initRelayStats, initRelayStats]) := by
  refine ⟨?_, fold_no_relay, ?_, ?_⟩
  · intro st l h
    simp [processLine, classify_of_epoch l h]
  · intro pre mid m hm hmid hcur
    have hcls : classifyLine m = .epochMark := classify_of_epoch m hm
    show (finalFlush ((pre ++ m :: (mid ++ [m])).foldl processLine initState)).epoch_data = _
    unfold foldState at hcur ⊢
    rw [List.foldl_append, List.foldl_cons, List.foldl_append, List.foldl_cons, List.foldl_nil]
    set s1 := pre.foldl processLine initState with hs1
    set s2 := processLine s1 m with hs2
    set s3 := mid.foldl processLine s2 with hs3
    obtain ⟨q1, q2, q3⟩ := fold_quiet mid s2 hmid
    rw [← hs3] at q1 q2 q3
    have h2ed : s2.epoch_data = s1.epoch_data ++ [s1.relay_stats] := by
      rw [hs2]; simp [processLine, hcls, hcur]
    have h2rs : s2.relay_stats = s1.relay_stats := by
      rw [hs2]; simp [processLine, hcls]
    have h2cur : s2.current_epoch = true := by
      rw [hs2]; simp [processLine, hcls]
    have h3cur : s3.current_epoch = true := q3.trans h2cur
    have h4cur : (processLine s3 m).current_epoch = true := by
      simp [processLine, hcls]
    have h4ed : (processLine s3 m).epoch_data = s3.epoch_data ++ [s3.relay_stats] := by
      simp [processLine, hcls, h3cur]
    have h4rs : (processLine s3 m).relay_stats = s3.relay_stats := by
      simp [processLine, hcls]
    have hff : (finalFlush (processLine s3 m)).epoch_data
        = (processLine s3 m).epoch_data ++ [(processLine s3 m).relay_stats] := by
      simp [finalFlush, h4cur]
    rw [hff, h4ed, h4rs, q1, q2, h2ed, h2rs]
    simp
  · intro mid m hm hmid
    have hcls : classifyLine m = .epochMark := classify_of_epoch m hm
    show (finalFlush ((m :: (mid ++ [m])).foldl processLine initState)).epoch_data = _
    rw [List.foldl_cons, List.foldl_append, List.foldl_cons, List.foldl_nil]
    set s2 := processLine initState m with hs2
    set s3 := mid.foldl processLine s2 with hs3
    obtain ⟨q1, q2, q3⟩ := fold_quiet mid s2 hmid
    rw [← hs3] at q1 q2 q3
    have h2ed : s2.epoch_data = [] := by
      rw [hs2]; simp [processLine, hcls, initState]
    have h2rs : s2.relay_stats = initRelayStats := by
      rw [hs2]; simp [processLine, hcls, initState]
    have h2cur : s2.current_epoch = true := by
      rw [hs2]; simp [processLine, hcls]
    have h3cur : s3.current_epoch = true := q3.trans h2cur
    have h4cur : (processLine s3 m).current_epoch = true := by
      simp [processLine, hcls]
    have h4ed : (processLine s3 m).epoch_data = s3.epoch_data ++ [s3.relay_stats] := by
      simp [processLine, hcls, h3cur]
    have h4rs : (processLine s3 m).relay_stats = s3.relay_stats := by
      simp [processLine, hcls]
    have hff : (finalFlush (processLine s3 m)).epoch_data
        = (processLine s3 m).epoch_data ++ [(processLine s3 m).relay_stats] := by
      simp [finalFlush, h4cur]
    rw [hff, h4ed, h4rs, q1, q2, h2ed, h2rs]
    simp

/-- Witness for C9: after an epoch with relay counts 10/5/3, a second and a
third epoch marker with only an unrecognized line in between store three
identical snapshots carrying those counts over. -/
theorem spec_C9_witness :
    (analyze_torfs_output ([lineMark, lineRelay] ++ lineMark :: (["hello"] ++ [lineMark]))).epoch_data
      = (foldState [lineMark, lineRelay]).epoch_data
        ++ [(foldState [lineMark, lineRelay]).relay_stats,
            (foldState [lineMark, lineRelay]).relay_stats,
            (foldState [lineMark, lineRelay]).relay_stats] :=
  spec_C9.2.2.1 [lineMark, lineRelay] ["hello"] lineMark (by decide) (by decide) (by decide)

/-! Invariants for the circuit tallies. -/

theorem all_circuits_fold (lines : List String) (st : AnalyzerState) :
    (lines.foldl processLine st).all_circuits = lines.foldl idStep st.all_circuits := by
  induction lines generalizing st with
  | nil => rfl
  | cons l ls ih =>
    rw [List.foldl_cons, List.foldl_cons, ih (processLine st l)]
    have hstep : (processLine st l).all_circuits = idStep st.all_circuits l := by
      cases hc : classifyLine l with
      | circuitUse cid g m x =>
        simp only [processLine, idStep, hc]
        split <;> rfl
      | epochMark => simp [processLine, idStep, hc]
      | relayCounts a b c => simp [processLine, idStep, hc]
      | advCounts g e => simp [processLine, idStep, hc]
      | skip => simp [processLine, idStep, hc]
    rw [hstep]

theorem sum_update_add_one (f : Bool × Bool × Bool → Nat) (t : Bool × Bool × Bool) :
    Finset.univ.sum (fun u => if u = t then f u + 1 else f u) = Finset.univ.sum f + 1 := by
  have hfun : (fun u => if u = t then f u + 1 else f u)
      = fun u => f u + (if u = t then 1 else 0) := by
    funext u
    by_cases h : u = t <;> simp [h]
  rw [hfun, Finset.sum_add_distrib]
  have hone : Finset.univ.sum (fun u => if u = t then 1 else 0) = 1 := by
    rw [Finset.sum_ite_eq' Finset.univ t (fun _ => 1)]
    simp
  rw [hone]

theorem tally_invariant (lines : List String) (st : AnalyzerState)
    (h1 : Finset.univ.sum st.circuits_compromised
        = (st.all_circuits.filter (fun c => isCompId c = true)).card)
    (h2 : st.circuits_compromised (false, false, false) = 0) :
    Finset.univ.sum (lines.foldl processLine st).circuits_compromised
        = ((lines.foldl processLine st).all_circuits.filter (fun c => isCompId c = true)).card
    ∧ (lines.foldl processLine st).circuits_compromised (false, false, false) = 0 := by
  induction lines generalizing st with
  | nil => exact ⟨h1, h2⟩
  | cons l ls ih =>
    rw [List.foldl_cons]
    refine ih (processLine st l) ?_ ?_
    · cases hc : classifyLine l with
      | epochMark => simpa [processLine, hc] using h1
      | relayCounts a b c => simpa [processLine, hc] using h1
      | advCounts g e => simpa [processLine, hc] using h1
      | skip => simpa [processLine, hc] using h1
      | circuitUse cid g m x =>
        simp only [processLine, hc]
        split
        next hcond =>
          have hcomp : isCompId (g, m, x) = true := hcond.1
          have hnotmem : (g, m, x) ∉ st.all_circuits.filter (fun c => isCompId c = true) :=
            fun hmem => hcond.2 (Finset.mem_filter.mp hmem).1
          show Finset.univ.sum (fun u =>
              if u = compVec g m x then st.circuits_compromised u + 1
              else st.circuits_compromised u) = _
          rw [sum_update_add_one, h1, Finset.filter_insert, if_pos hcomp,
            Finset.card_insert_of_not_mem hnotmem]
        next hcond =>
          show Finset.univ.sum st.circuits_compromised = _
          by_cases hcomp : isCompId (g, m, x) = true
          · have hmem : (g, m, x) ∈ st.all_circuits := by
              by_contra hnm
              exact hcond ⟨hcomp, hnm⟩
            rw [Finset.insert_eq_self.mpr hmem]
            exact h1
          · rw [Finset.filter_insert, if_neg hcomp]
            exact h1
    · cases hc : classifyLine l with
      | epochMark => simpa [processLine, hc] using h2
      | relayCounts a b c => simpa [processLine, hc] using h2
      | advCounts g e => simpa [processLine, hc] using h2
      | skip => simpa [processLine, hc] using h2
      | circuitUse cid g m x =>
        simp only [processLine, hc]
        split
        next hcond =>
          show (if (false, false, false) = compVec g m x
              then st.circuits_compromised (false, false, false) + 1
              else st.circuits_compromised (false, false, false)) = 0
          rw [if_neg, h2]
          intro heq
          have hvec : compVec g m x = (false, false, false) := heq.symm
          have h1' := hcond.1
          simp only [compVec, Prod.mk.injEq] at hvec
          rw [hvec.1, hvec.2.1, hvec.2.2] at h1'
          simp at h1'
        next hcond =>
          exact h2

theorem finalFlush_circuits (st : AnalyzerState) :
    (finalFlush st).all_circuits = st.all_circuits
    ∧ (finalFlush st).circuits_compromised = st.circuits_compromised := by
  unfold finalFlush
  split <;> exact ⟨rfl, rfl⟩

/-- C5: the total circuit count decomposes into the compromised tally plus
the number of distinct clean identities, and the compromised tally is the
sum of the per-vector counts over the seven non-empty vectors. -/
theorem spec_C5 (lines : List String) :
    (analyze_torfs_output lines).total_circuits
      = (analyze_torfs_output lines).compromised_circuits
        + ((circuitIds lines).filter (fun c => isCompId c = false)).card
    ∧ (analyze_torfs_output lines).compromised_circuits
      = (Finset.univ.erase (false, false, false)).sum (analyze_torfs_output lines).circuit_counts := by
  have e1 : (analyze_torfs_output lines).total_circuits = (foldState lines).all_circuits.card := by
    show (finalFlush (foldState lines)).all_circuits.card = _
    rw [(finalFlush_circuits _).1]
  have e2 : (analyze_torfs_output lines).compromised_circuits
      = Finset.univ.sum (foldState lines).circuits_compromised := by
    show Finset.univ.sum (finalFlush (foldState lines)).circuits_compromised = _
    rw [(finalFlush_circuits _).2]
  have e3 : (analyze_torfs_output lines).circuit_counts
      = (foldState lines).circuits_compromised := by
    show (finalFlush (foldState lines)).circuits_compromised = _
    rw [(finalFlush_circuits _).2]
  obtain ⟨inv1, inv2⟩ := tally_invariant lines initState (by simp [initState]) rfl
  have inv1' : Finset.univ.sum (foldState lines).circuits_compromised
      = ((foldState lines).all_circuits.filter (fun c => isCompId c = true)).card := inv1
  have inv2' : (foldState lines).circuits_compromised (false, false, false) = 0 := inv2
  have hids : (foldState lines).all_circuits = circuitIds lines := by
    unfold foldState circuitIds
    rw [all_circuits_fold]
    rfl
  constructor
  · have hsplit := Finset.filter_card_add_filter_neg_card_eq_card
      (s := (foldState lines).all_circuits) (p := fun c => isCompId c = true)
    have hneg : ((foldState lines).all_circuits.filter (fun c => ¬ isCompId c = true))
        = ((foldState lines).all_circuits.filter (fun c => isCompId c = false)) := by
      apply Finset.filter_congr
      intro c _
      simp [Bool.not_eq_true]
    rw [hneg] at hsplit
    rw [e1, e2, inv1', ← hids]
    exact hsplit.symm
  · rw [e2, e3]
    exact (Finset.sum_erase Finset.univ inv2').symm

/-! Characterization of the epoch matcher in terms of substring
decompositions. -/

theorem dropLit_some_iff (pat : List Char) (r : List Char) :
    ∀ s, dropLit pat s = some r ↔ s = pat ++ r := by
  induction pat with
  | nil => intro s; simp [dropLit]
  | cons p ps ih =>
    intro s
    cases s with
    | nil => simp [dropLit]
    | cons c cs =>
      simp only [dropLit, List.cons_append, List.cons.injEq]
      by_cases h : c = p
      · rw [if_pos h, ih cs]
        simp [h]
      · rw [if_neg h]
        simp [h]

theorem hasSub_iff (pat : List Char) (s : List Char) :
    hasSub pat s = true ↔ ∃ a b, s = a ++ (pat ++ b) := by
  induction s with
  | nil =>
    constructor
    · intro h
      simp only [hasSub] at h
      obtain ⟨r, hr⟩ := Option.isSome_iff_exists.mp h
      exact ⟨[], r, by simpa using (dropLit_some_iff pat r []).mp hr⟩
    · rintro ⟨a, b, hab⟩
      obtain ⟨ha, hpb⟩ := List.append_eq_nil.mp hab.symm
      obtain ⟨hp, hb⟩ := List.append_eq_nil.mp hpb
      subst hp
      simp [hasSub, dropLit]
  | cons c cs ih =>
    simp only [hasSub, Bool.or_eq_true]
    constructor
    · rintro (h | h)
      · obtain ⟨r, hr⟩ := Option.isSome_iff_exists.mp h
        exact ⟨[], r, by simpa using (dropLit_some_iff pat r (c :: cs)).mp hr⟩
      · obtain ⟨a, b, hab⟩ := ih.mp h
        exact ⟨c :: a, b, by simp [hab]⟩
    · rintro ⟨a, b, hab⟩
      cases a with
      | nil =>
        left
        simp only [List.nil_append] at hab
        exact Option.isSome_iff_exists.mpr ⟨b, (dropLit_some_iff pat b (c :: cs)).mpr hab⟩
      | cons a0 as =>
        right
        apply ih.mpr
        simp only [List.cons_append, List.cons.injEq] at hab
        exact ⟨as, b, hab.2⟩

theorem brackScan_iff (pat : List Char) (s : List Char) :
    brackScan pat s = true ↔ ∃ a b c, s = a ++ '[' :: (b ++ (pat ++ c)) := by
  induction s with
  | nil =>
    constructor
    · intro h
      simp [brackScan] at h
    · rintro ⟨a, b, c, h⟩
      cases a <;> simp at h
  | cons d ds ih =>
    constructor
    · intro h
      simp only [brackScan, Bool.or_eq_true, Bool.and_eq_true, decide_eq_true_eq] at h
      rcases h with ⟨hd, hsub⟩ | h
      · subst hd
        obtain ⟨b, c, hbc⟩ := (hasSub_iff pat ds).mp hsub
        exact ⟨[], b, c, by simp [hbc]⟩
      · obtain ⟨a, b, c, habc⟩ := ih.mp h
        exact ⟨d :: a, b, c, by simp [habc]⟩
    · rintro ⟨a, b, c, habc⟩
      simp only [brackScan, Bool.or_eq_true, Bool.and_eq_true, decide_eq_true_eq]
      cases a with
      | nil =>
        left
        simp only [List.nil_append, List.cons.injEq] at habc
        exact ⟨habc.1, (hasSub_iff pat ds).mpr ⟨b, c, habc.2⟩⟩
      | cons a0 as =>
        right
        apply ih.mpr
        simp only [List.cons_append, List.cons.injEq] at habc
        exact ⟨as, b, c, habc.2⟩

/-- C2 as stated is false: this line contains the epoch-marker text
`Entering simulation epoch with consensus from` but no bracketed prefix,
and the analyzer does not recognize it as an epoch boundary (the pattern
`\[.*\] Entering...` requires the brackets), so no snapshot is stored even
at end of input. -/
theorem spec_C2_counterexample :
    hasSub markerText lineNoBrack.data = true
    ∧ epochMatch lineNoBrack = false
    ∧ (analyze_torfs_output [lineNoBrack]).epoch_data = []
    ∧ countMarkers [lineNoBrack] = 0 :=
  ⟨by decide, by decide, rfl, by decide⟩

/-- C2 amended: a line is recognized as an epoch boundary exactly when it
contains a `'['` followed — possibly after other characters — by the
literal `'] Entering simulation epoch with consensus from'`; the bracketed
prefix is therefore required, not optional.  Every recognized line is
treated as an epoch boundary: the open-epoch flag is set and the running
snapshot is flushed exactly when an epoch was already open. -/
theorem spec_C2_amended :
    (∀ l : String, epochMatch l = true ↔
        ∃ a b c : List Char, l.data = a ++ '[' :: (b ++ (epochClose ++ c)))
    ∧ (∀ (st : AnalyzerState) (l : String), epochMatch l = true →
        (processLine st l).current_epoch = true
        ∧ (processLine st l).epoch_data
            = (if st.current_epoch then st.epoch_data ++ [st.relay_stats]
               else st.epoch_data)) := by
  constructor
  · intro l
    exact brackScan_iff epochClose l.data
  · intro st l h
    constructor <;> simp [processLine, classify_of_epoch l h]

/-- Witness for the amended C2: the bracketed marker line is recognized and
opens an epoch on the initial state. -/
theorem spec_C2_witness :
    (processLine initState lineMark).current_epoch = true
    ∧ (processLine initState lineMark).epoch_data
        = (if initState.current_epoch then initState.epoch_data ++ [initState.relay_stats]
           else initState.epoch_data) :=
  spec_C2_amended.2 initState lineMark (by decide)

end CreateStatistics
